import Mathlib

/-!
Shallow embedding of the core of `src/main.py` (Crop Manager Pro):
the `KnowledgeBase` report generator and the `DataManager` JSON store.
Machine 32-bit arithmetic is modelled on `Nat` reduced modulo `2 ^ 32`.
-/

/-- Reduce a natural number to a 32-bit word (`x % 2 ^ 32`). -/
def w32 (n : Nat) : Nat := n % 4294967296

/-- Reduce a natural number to a byte (`x % 2 ^ 8`). -/
def w8 (n : Nat) : Nat := n % 256

/-- Right rotation of a 32-bit word by `n` bits. -/
def rotr (n x : Nat) : Nat := w32 ((x >>> n) ||| (x <<< (32 - n)))

/-- SHA-256 choice function `Ch(e,f,g)`; complement taken by xor with the
all-ones 32-bit word. -/
def shaCh (e f g : Nat) : Nat := (e &&& f) ^^^ ((e ^^^ 4294967295) &&& g)

/-- SHA-256 majority function `Maj(a,b,c)`. -/
def shaMaj (a b c : Nat) : Nat := (a &&& b) ^^^ (a &&& c) ^^^ (b &&& c)

/-- SHA-256 big sigma-0. -/
def bigSigma0 (x : Nat) : Nat := rotr 2 x ^^^ rotr 13 x ^^^ rotr 22 x

/-- SHA-256 big sigma-1. -/
def bigSigma1 (x : Nat) : Nat := rotr 6 x ^^^ rotr 11 x ^^^ rotr 25 x

/-- SHA-256 small sigma-0. -/
def smallSigma0 (x : Nat) : Nat := rotr 7 x ^^^ rotr 18 x ^^^ (x >>> 3)

/-- SHA-256 small sigma-1. -/
def smallSigma1 (x : Nat) : Nat := rotr 17 x ^^^ rotr 19 x ^^^ (x >>> 10)

/-- The 64 SHA-256 round constants. -/
def shaK : List Nat :=
  [1116352408, 1899447441, 3049323471, 3921009573, 961987163, 1508970993,
   2453635748, 2870763221, 3624381080, 310598401, 607225278, 1426881987,
   1925078388, 2162078206, 2614888103, 3248222580, 3835390401, 4022224774,
   264347078, 604807628, 770255983, 1249150122, 1555081692, 1996064986,
   2554220882, 2821834349, 2952996808, 3210313671, 3336571891, 3584528711,
   113926993, 338241895, 666307205, 773529912, 1294757372, 1396182291,
   1695183700, 1986661051, 2177026350, 2456956037, 2730485921, 2820302411,
   3259730800, 3345764771, 3516065817, 3600352804, 4094571909, 275423344,
   430227734, 506948616, 659060556, 883997877, 958139571, 1322822218,
   1537002063, 1747873779, 1955562222, 2024104815, 2227730452, 2361852424,
   2428436474, 2756734187, 3204031479, 3329325298]

/-- Working state of the SHA-256 compression function: eight 32-bit words. -/
structure Sha8 where
  a : Nat
  b : Nat
  c : Nat
  d : Nat
  e : Nat
  f : Nat
  g : Nat
  h : Nat
deriving DecidableEq, Repr

/-- The SHA-256 initial hash value. -/
def shaH0 : Sha8 :=
  ⟨1779033703, 3144134277, 1013904242, 2773480762,
   1359893119, 2600822924, 528734635, 1541459225⟩

/-- One round of the SHA-256 compression function; `kw` is the round
constant already added to the scheduled message word. -/
def shaRound (st : Sha8) (kw : Nat) : Sha8 :=
  let t1 := w32 (st.h + bigSigma1 st.e + shaCh st.e st.f st.g + kw)
  let t2 := w32 (bigSigma0 st.a + shaMaj st.a st.b st.c)
  ⟨w32 (t1 + t2), st.a, st.b, st.c, w32 (st.d + t1), st.e, st.f, st.g⟩

/-- Message-schedule extension: `acc` holds the schedule produced so far in
reverse order; each step prepends the next word. -/
def shaExtend (acc : List Nat) : Nat → List Nat
  | 0 => acc
  | Nat.succ k =>
      shaExtend
        (w32 (smallSigma1 (acc.getD 1 0) + acc.getD 6 0 +
              smallSigma0 (acc.getD 14 0) + acc.getD 15 0) :: acc) k

/-- Expand the 16 words of a block into the 64-word message schedule. -/
def shaSchedule (ws : List Nat) : List Nat := (shaExtend ws.reverse 48).reverse

/-- Process a single 16-word block, updating the running hash value. -/
def shaBlock (hs : Sha8) (block : List Nat) : Sha8 :=
  let kw := List.zipWith (fun a b => a + b) shaK (shaSchedule block)
  let o := kw.foldl shaRound hs
  ⟨w32 (hs.a + o.a), w32 (hs.b + o.b), w32 (hs.c + o.c), w32 (hs.d + o.d),
   w32 (hs.e + o.e), w32 (hs.f + o.f), w32 (hs.g + o.g), w32 (hs.h + o.h)⟩

/-- Group a big-endian byte list into 32-bit words (four bytes per word). -/
def wordsOfBytes : List Nat → List Nat
  | b0 :: b1 :: b2 :: b3 :: rest =>
      ((b0 <<< 24) ||| (b1 <<< 16) ||| (b2 <<< 8) ||| b3) :: wordsOfBytes rest
  | _ => []

/-- The eight big-endian bytes of a 64-bit length field. -/
def beBytes8 (n : Nat) : List Nat :=
  [w8 (n >>> 56), w8 (n >>> 48), w8 (n >>> 40), w8 (n >>> 32),
   w8 (n >>> 24), w8 (n >>> 16), w8 (n >>> 8), w8 n]

/-- SHA-256 padding: append `0x80`, zero bytes up to 56 mod 64, then the
bit length as eight big-endian bytes. -/
def shaPad (msg : List Nat) : List Nat :=
  let len := msg.length
  let zeros := (119 - (len % 64)) % 64
  msg ++ 128 :: (List.replicate zeros 0 ++ beBytes8 (8 * len))

/-- Split a word list into 16-word blocks (structural recursion so that the
kernel can evaluate it). -/
def chunks16 : List Nat → List (List Nat)
  | w0 :: w1 :: w2 :: w3 :: w4 :: w5 :: w6 :: w7 ::
    w8 :: w9 :: w10 :: w11 :: w12 :: w13 :: w14 :: w15 :: rest =>
      [w0, w1, w2, w3, w4, w5, w6, w7, w8, w9, w10, w11, w12, w13, w14, w15] ::
        chunks16 rest
  | _ => []

/-- The SHA-256 digest of a byte list, as eight 32-bit words. -/
def sha256Words (msg : List Nat) : Sha8 :=
  (chunks16 (wordsOfBytes (shaPad msg))).foldl shaBlock shaH0

/-- Lowercase hexadecimal digit for a value below 16. -/
def hexDigitChar (n : Nat) : Char :=
  match n with
  | 0 => '0' | 1 => '1' | 2 => '2' | 3 => '3' | 4 => '4'
  | 5 => '5' | 6 => '6' | 7 => '7' | 8 => '8' | 9 => '9'
  | 10 => 'a' | 11 => 'b' | 12 => 'c' | 13 => 'd' | 14 => 'e'
  | _ => 'f'

/-- The eight lowercase hex digits of a 32-bit word, most significant first. -/
def wordHex (w : Nat) : List Char :=
  [hexDigitChar ((w >>> 28) % 16), hexDigitChar ((w >>> 24) % 16),
   hexDigitChar ((w >>> 20) % 16), hexDigitChar ((w >>> 16) % 16),
   hexDigitChar ((w >>> 12) % 16), hexDigitChar ((w >>> 8) % 16),
   hexDigitChar ((w >>> 4) % 16), hexDigitChar (w % 16)]

/-- The lowercase hex digest of a byte list, as `hashlib`'s `hexdigest`. -/
def sha256hex (msg : List Nat) : String :=
  let s := sha256Words msg
  String.mk (wordHex s.a ++ wordHex s.b ++ wordHex s.c ++ wordHex s.d ++
             wordHex s.e ++ wordHex s.f ++ wordHex s.g ++ wordHex s.h)

/-- UTF-8 encoding of a single character (as Python `str.encode`). -/
def utf8Enc (c : Char) : List Nat :=
  let n := c.toNat
  if n < 128 then [n]
  else if n < 2048 then [192 ||| (n >>> 6), 128 ||| (n &&& 63)]
  else if n < 65536 then
    [224 ||| (n >>> 12), 128 ||| ((n >>> 6) &&& 63), 128 ||| (n &&& 63)]
  else
    [240 ||| (n >>> 18), 128 ||| ((n >>> 12) &&& 63),
     128 ||| ((n >>> 6) &&& 63), 128 ||| (n &&& 63)]

/-- The UTF-8 bytes of a string (Python `text.encode()`). -/
def strBytes (s : String) : List Nat := (s.data.map utf8Enc).flatten

/-- `DataManager._hash`: `hashlib.sha256(text.encode()).hexdigest()`. -/
def _hash (text : String) : String := sha256hex (strBytes text)

/-!
Models of the Python string builtins used by `KnowledgeBase.generate_report`:
`str.replace("_", " ")`, `str.strip()`, `str.lower()` and the substring test
`in`.  They operate on `List Char` (`String.data`).  `lower` is modelled on
the ASCII range, which covers every string the program's label table and the
claims use; `strip` strips the ASCII whitespace characters Python strips.
-/

/-- Characters removed by Python `str.strip()` (ASCII whitespace). -/
def isPySpace (c : Char) : Bool :=
  c == ' ' || c == '\t' || c == '\n' || c == '\x0b' || c == '\x0c' || c == '\r'

/-- Python `str.strip()`: drop leading and trailing whitespace. -/
def pyStrip (l : List Char) : List Char :=
  ((l.dropWhile isPySpace).reverse.dropWhile isPySpace).reverse

/-- Python `str.lower()` on one character, modelled on the ASCII letters. -/
def lowerChar (c : Char) : Char :=
  if 'A' ≤ c && c ≤ 'Z' then Char.ofNat (c.toNat + 32) else c

/-- Python `str.lower()` on a character list. -/
def lowerL (l : List Char) : List Char := l.map lowerChar

/-- Whether `needle` is a leading segment of `hay`. -/
def leadSeg : List Char → List Char → Bool
  | _, [] => true
  | [], _ :: _ => false
  | h :: hs, n :: ns => h == n && leadSeg hs ns

/-- Python substring test `needle in hay`. -/
def containsSub (hay needle : List Char) : Bool :=
  match hay with
  | [] => leadSeg [] needle
  | _ :: t => leadSeg hay needle || containsSub t needle

/-- One entry of `KnowledgeBase.ADVICE`. -/
structure Advice where
  cause : String
  symptoms : String
  treatment : String
  prevention : String
deriving DecidableEq, Repr

/-- The `bacterial_spot` entry of `KnowledgeBase.ADVICE`. -/
def bacterialSpotAdvice : Advice :=
  { cause := "Bacterial infection (Xanthomonas)",
    symptoms := "Small, water-soaked spots on leaves turning brown/black.",
    treatment := "Apply copper-based fungicides. Remove infected leaves.",
    prevention := "Avoid overhead watering. Rotate crops yearly." }

/-- The `early_blight` entry of `KnowledgeBase.ADVICE`. -/
def earlyBlightAdvice : Advice :=
  { cause := "Fungal infection (Alternaria solani)",
    symptoms := "Concentric rings (bullseye pattern) on lower leaves.",
    treatment := "Use bio-fungicides or copper sprays.",
    prevention := "Mulch soil to prevent spore splash. Stake plants." }

/-- The `late_blight` entry of `KnowledgeBase.ADVICE`. -/
def lateBlightAdvice : Advice :=
  { cause := "Water mold (Phytophthora infestans)",
    symptoms := "Large, dark, greasy blotches. White fuzzy growth.",
    treatment := "Use fungicides with chlorothalonil/copper immediately.",
    prevention := "Destroy infected debris. Do not compost." }

/-- The `powdery_mildew` entry of `KnowledgeBase.ADVICE`. -/
def powderyMildewAdvice : Advice :=
  { cause := "Fungal spores",
    symptoms := "White, flour-like powder on leaf surfaces.",
    treatment := "Neem oil, sulfur sprays, or baking soda mixture.",
    prevention := "Ensure good air circulation." }

/-- The `healthy` entry of `KnowledgeBase.ADVICE`. -/
def healthyAdvice : Advice :=
  { cause := "N/A",
    symptoms := "Leaves are vibrant green and structurally sound.",
    treatment := "Continue current care routine.",
    prevention := "Monitor regularly." }

/-- The fallback advisory passed as default to `ADVICE.get` in
`generate_report`. -/
def genericAdvice : Advice :=
  { cause := "Unknown pathogen or environmental stress.",
    symptoms := "Visible discoloration or lesions.",
    treatment := "Isolate plant. Consult local agricultural extension.",
    prevention := "Maintain general hygiene." }

/-- `KnowledgeBase.ADVICE`, in the dict's insertion (iteration) order. -/
def ADVICE : List (String × Advice) :=
  [("bacterial_spot", bacterialSpotAdvice),
   ("early_blight", earlyBlightAdvice),
   ("late_blight", lateBlightAdvice),
   ("powdery_mildew", powderyMildewAdvice),
   ("healthy", healthyAdvice)]

/-- Python dict membership `k in d` for an association list. -/
def keyMem {α : Type} : List (String × α) → String → Bool
  | [], _ => false
  | p :: rest, k => p.1 == k || keyMem rest k

/-- Python `d.get(k)` / `d[k]` for an association list: the value at the
first matching key, if any. -/
def dictGet {α : Type} : List (String × α) → String → Option α
  | [], _ => none
  | p :: rest, k => if p.1 == k then some p.2 else dictGet rest k

/-- The `for key in ADVICE: if key in label: key_match = key; break` loop of
`generate_report`: the first key occurring in the lowercased clean label,
else the initial value `"generic"`. -/
def loopMatch (cl : List Char) : List (String × Advice) → String
  | [] => "generic"
  | (k, _) :: rest => if containsSub cl k.data then k else loopMatch cl rest

/-- The normalized label: `raw_label.replace("_", " ").strip()`. -/
def cleanLabel (raw : String) : List Char :=
  pyStrip (raw.data.map (fun c => if c == '_' then ' ' else c))

/-- The local `key_match` of `generate_report`. -/
def reportKey (raw : String) : String :=
  loopMatch (lowerL (cleanLabel raw)) ADVICE

/-- The local `info` of `generate_report`:
`ADVICE.get(key_match, generic-default)`. -/
def reportInfo (raw : String) : Advice :=
  (dictGet ADVICE (reportKey raw)).getD genericAdvice

/-!
Confidence is a Python float; the embedding abstracts it as an exact
nonnegative rational.  The f-string piece `{confidence * 100:.2f}` formats
`confidence * 100` with two digits after the point, rounding half to even
(the rounding of Python float formatting).  To keep the definition
evaluable by the kernel it is computed from the numerator and denominator
of the rational with plain natural-number arithmetic.
-/

/-- Round `p / q` to the nearest natural number, ties to even. -/
def rheND (p q : Nat) : Nat :=
  let f := p / q
  let r := p % q
  if q < 2 * r then f + 1
  else if 2 * r < q then f
  else if f % 2 = 0 then f else f + 1

/-- Two decimal digits, zero padded. -/
def pad2 (n : Nat) : String :=
  if n < 10 then "0" ++ toString n else toString n

/-- The f-string piece `{confidence * 100:.2f}` for a nonnegative rational
confidence: the number of hundredths in `confidence * 100` is
`confidence.num * 10000 / confidence.den`, rounded half to even. -/
def fmtF2pct (confidence : ℚ) : String :=
  let n := rheND (confidence.num.toNat * 10000) confidence.den
  toString (n / 100) ++ "." ++ pad2 (n % 100)

/-- The report produced by `KnowledgeBase.generate_report`. -/
structure Report where
  title : String
  status : String
  details : String
deriving DecidableEq, Repr

/-- The details f-string of `generate_report`, as a function of the clean
label, the confidence and the selected advisory. -/
def mkDetails (clean : List Char) (confidence : ℚ) (info : Advice) : String :=
  "🔬 **DIAGNOSIS:** " ++ String.mk clean ++ "\n" ++
  "Confidence: " ++ fmtF2pct confidence ++ "%\n\n" ++
  "📋 **SYMPTOMS:**\n" ++ info.symptoms ++ "\n\n" ++
  "💊 **TREATMENT:**\n" ++ info.treatment ++ "\n\n" ++
  "🛡️ **PREVENTION:**\n" ++ info.prevention

/-- `KnowledgeBase.generate_report`. -/
def generate_report (raw_label : String) (confidence : ℚ) : Report :=
  let clean := cleanLabel raw_label
  let is_healthy := containsSub (lowerL clean) ("healthy".data)
  { title := (if is_healthy then "✅" else "⚠️") ++ " " ++ String.mk clean,
    status := if is_healthy then "Healthy" else "Infected",
    details := mkDetails clean confidence (reportInfo raw_label) }

/-!
Embedding of `DataManager`.  The store file is modelled as a `DiskState`:
absent, present but unparseable, or present and parsed into a `Doc`.  A
`Doc` abstracts the parsed top-level JSON document to what the code
inspects: either it has a top-level `"users"` key holding a map from
usernames to user records (`Doc.withUsers`), or it lacks the `"users"` key
and is itself a flat username-to-record map, the legacy format
(`Doc.flat`).  Every operation is a function from the disk state (and its
arguments) to the result and/or the new disk state; operations that can
raise a `KeyError` in Python (indexing `db["users"]` on a document without
a `users` key) return `Option`, with `none` for the raised exception.
`json.dump`/`json.load` round-trip a document, so `_save d` is modelled as
making the file hold exactly `d`; disk-write failures (swallowed by the
code) are not modelled.
-/

/-- One element of a user's `inventory` list, as built by `add_item`. -/
structure Item where
  id : String
  name : String
  category : String
  qty : String
  notes : String
  date : String
deriving DecidableEq, Repr

/-- One element of a user's `history` list, as built by `log_scan`. -/
structure HistEntry where
  date : String
  file : String
  result : String
  status : String
deriving DecidableEq, Repr

/-- One user's record in the store. -/
structure UserRec where
  password : String
  history : List HistEntry
  inventory : List Item
deriving DecidableEq, Repr

/-- A parsed top-level store document, abstracted to what `DataManager`
inspects: either it has the `"users"` key, or it is a flat legacy map. -/
inductive Doc where
  | withUsers (users : List (String × UserRec))
  | flat (m : List (String × UserRec))
deriving DecidableEq, Repr

/-- The state of the store file on disk. -/
inductive DiskState where
  | absent
  | corrupt
  | stored (d : Doc)
deriving DecidableEq, Repr

/-- `DataManager._load`: parse the file; on any failure (missing file or
unparseable contents) return `{"users": {}}`. -/
def _load : DiskState → Doc
  | DiskState.absent => Doc.withUsers []
  | DiskState.corrupt => Doc.withUsers []
  | DiskState.stored d => d

/-- `DataManager._save`: rewrite the file so that it holds exactly `data`. -/
def _save (data : Doc) : DiskState := DiskState.stored data

/-- `db.get("users", {})`: the users map of a document, or empty when the
`users` key is missing. -/
def usersOrEmpty : Doc → List (String × UserRec)
  | Doc.withUsers us => us
  | Doc.flat _ => []

/-- In-place update of the value at key `k` (other entries and the key
order unchanged), as mutating `d[k]` does in Python. -/
def updateRec {α : Type} (d : List (String × α)) (k : String) (f : α → α) :
    List (String × α) :=
  d.map (fun p => if p.1 == k then (p.1, f p.2) else p)

/-- `DataManager.register_user`.  `none` models the `KeyError` raised by
`db["users"]` on a document without a `users` key; otherwise the result is
the returned `(ok, message)` pair and the disk state after the call. -/
def register_user (s : DiskState) (u p : String) :
    Option ((Bool × String) × DiskState) :=
  match _load s with
  | Doc.flat _ => none
  | Doc.withUsers us =>
      if keyMem us u then some ((false, "Username taken"), s)
      else
        some ((true, "Success"),
          _save (Doc.withUsers (us ++ [(u, ⟨_hash p, [], []⟩)])))

/-- `DataManager.verify_user`: `u in users and users[u]["password"] ==
self._hash(p)`, with `users = db.get("users", {})`. -/
def verify_user (s : DiskState) (u p : String) : Bool :=
  match dictGet (usersOrEmpty (_load s)) u with
  | some r => r.password == _hash p
  | none => false

/-- `DataManager._ensure_db`.  The `except` branch of the self-repair is
unreachable: `_load` already swallows every parse failure and returns
`{"users": {}}`, so the `try` block cannot raise. -/
def _ensure_db (s : DiskState) : DiskState :=
  match s with
  | DiskState.absent =>
      let s1 := _save (Doc.withUsers [])
      match register_user s1 "admin" "admin" with
      | some (_, s2) => s2
      | none => s1
  | s' =>
      match _load s' with
      | Doc.withUsers _ => s'
      | Doc.flat m =>
          if keyMem m "admin" then _save (Doc.withUsers m)
          else _save (Doc.withUsers [])

/-- `DataManager.add_item`.  The item id (`str(uuid.uuid4())[:8]`) and the
creation date (`datetime.datetime.now().strftime("%Y-%m-%d")`) are
generated from the environment; the embedding passes them as the explicit
arguments `newId` and `today`.  `none` models the `KeyError` on a document
without a `users` key. -/
def add_item (s : DiskState) (user nm category qty notes newId today : String) :
    Option DiskState :=
  match _load s with
  | Doc.flat _ => none
  | Doc.withUsers us =>
      if keyMem us user then
        let item : Item := ⟨newId, nm, category, qty, notes, today⟩
        some (_save (Doc.withUsers (updateRec us user
          (fun r => { r with inventory := item :: r.inventory }))))
      else some s

/-- `DataManager.get_inventory`: chained `.get` calls, so an unknown user
(or a document without a `users` key) yields the empty list. -/
def get_inventory (s : DiskState) (user : String) : List Item :=
  match dictGet (usersOrEmpty (_load s)) user with
  | some r => r.inventory
  | none => []

/-- The accumulator `stats` starts as this dict (key order preserved). -/
def statsInit : List (String × Nat) :=
  [("Plant", 0), ("Seed", 0), ("Tool", 0), ("Other", 0)]

/-- `stats[cat] += 1`: increment the value at an existing key in place. -/
def bump (st : List (String × Nat)) (k : String) : List (String × Nat) :=
  st.map (fun p => if p.1 == k then (p.1, p.2 + 1) else p)

/-- The loop body of `get_stats`: `if cat in stats: stats[cat] += 1 else:
stats["Other"] += 1`. -/
def statsStep (st : List (String × Nat)) (i : Item) : List (String × Nat) :=
  if keyMem st i.category then bump st i.category else bump st "Other"

/-- `DataManager.get_stats`. -/
def get_stats (s : DiskState) (user : String) : List (String × Nat) :=
  (get_inventory s user).foldl statsStep statsInit

/-!
Helper lemmas about the string and association-list models.
-/

/-- Every character of a leading segment is a character of the list. -/
theorem mem_of_leadSeg : ∀ {hay nd : List Char}, leadSeg hay nd = true →
    ∀ c ∈ nd, c ∈ hay := by
  intro hay
  induction hay with
  | nil =>
      intro nd h c hc
      cases nd with
      | nil => simp at hc
      | cons n ns => simp [leadSeg] at h
  | cons a as ih =>
      intro nd h c hc
      cases nd with
      | nil => simp at hc
      | cons n ns =>
          simp only [leadSeg, Bool.and_eq_true, beq_iff_eq] at h
          rcases List.mem_cons.1 hc with rfl | hc'
          · exact h.1 ▸ List.mem_cons_self a as
          · exact List.mem_cons_of_mem a (ih h.2 c hc')

/-- Every character of a substring is a character of the haystack. -/
theorem mem_of_containsSub : ∀ {hay nd : List Char},
    containsSub hay nd = true → ∀ c ∈ nd, c ∈ hay := by
  intro hay
  induction hay with
  | nil =>
      intro nd h c hc
      cases nd with
      | nil => simp at hc
      | cons n ns => simp [containsSub, leadSeg] at h
  | cons a as ih =>
      intro nd h c hc
      simp only [containsSub, Bool.or_eq_true] at h
      rcases h with h' | h'
      · exact mem_of_leadSeg h' c hc
      · exact List.mem_cons_of_mem a (ih h' c hc)

/-- Lowercasing sends only the underscore to the underscore. -/
theorem lowerChar_eq_underscore {c : Char} (h : lowerChar c = '_') : c = '_' := by
  unfold lowerChar at h
  split at h
  · rename_i hc
    simp only [Bool.and_eq_true, decide_eq_true_eq] at hc
    have hA : 65 ≤ c.toNat := hc.1
    have hZ : c.toNat ≤ 90 := hc.2
    have hv : (c.toNat + 32).isValidChar := by left; omega
    have ht : (Char.ofNat (c.toNat + 32)).toNat = c.toNat + 32 := by
      unfold Char.ofNat
      rw [dif_pos hv]
      rfl
    have h95 : ('_' : Char).toNat = 95 := rfl
    rw [h, h95] at ht
    omega
  · exact h

/-- Dropping a leading segment preserves membership. -/
theorem mem_of_mem_dropWhile {p : Char → Bool} :
    ∀ {l : List Char} {c : Char}, c ∈ l.dropWhile p → c ∈ l := by
  intro l
  induction l with
  | nil => intro c hc; simp [List.dropWhile] at hc
  | cons a as ih =>
      intro c hc
      cases hp : p a with
      | true =>
          simp only [List.dropWhile, hp] at hc
          exact List.mem_cons_of_mem a (ih hc)
      | false =>
          simp only [List.dropWhile, hp] at hc
          exact hc

/-- Stripping preserves membership. -/
theorem mem_of_mem_pyStrip {l : List Char} {c : Char} (h : c ∈ pyStrip l) :
    c ∈ l := by
  unfold pyStrip at h
  rw [List.mem_reverse] at h
  have h1 := mem_of_mem_dropWhile h
  rw [List.mem_reverse] at h1
  exact mem_of_mem_dropWhile h1

/-- The normalized, lowercased label contains no underscore: normalization
replaced every underscore with a space. -/
theorem underscore_not_mem_lowerClean (raw : String) :
    ('_' : Char) ∉ lowerL (cleanLabel raw) := by
  intro hmem
  unfold lowerL at hmem
  rcases List.mem_map.1 hmem with ⟨c, hc, hlc⟩
  have hcu : c = '_' := lowerChar_eq_underscore hlc
  subst hcu
  have hc' := mem_of_mem_pyStrip hc
  rcases List.mem_map.1 hc' with ⟨d, _, hd⟩
  by_cases hdu : (d == '_') = true
  · simp [hdu] at hd
  · simp [hdu] at hd
    rw [hd] at hdu
    simp at hdu

/-!
Claim theorems.
-/

/-- Claim C1 (code bug exhibited): on an existing but unparseable store
file, `ensure_store` performs no reset at all.  `_load` swallows the parse
failure and returns a fresh `users` document, so the `except` branch of
`_ensure_db` that would reset the store and register the default
administrator is unreachable: the corrupt file is left on disk unchanged,
the store then loads as an empty `users` map, and `verify_user "admin"
"admin"` is `false` - contrary to the claimed recovery. -/
theorem claim_C1 :
    _ensure_db DiskState.corrupt = DiskState.corrupt ∧
    usersOrEmpty (_load (_ensure_db DiskState.corrupt)) = [] ∧
    verify_user (_ensure_db DiskState.corrupt) "admin" "admin" = false :=
  ⟨rfl, rfl, rfl⟩

/-- The rational 0.93, given in lowest terms so the kernel can evaluate
with it. -/
def conf093 : ℚ := ⟨93, 100, by decide, by decide⟩

/-- The rational 0.99, given in lowest terms so the kernel can evaluate
with it. -/
def conf099 : ℚ := ⟨99, 100, by decide, by decide⟩

/-- Claim C2 (code bug exhibited): `generate_report "Tomato___Late_blight"
0.93` does report status `"Infected"`, a title containing `"Late blight"`
and details containing `"93.00%"`, but its details contain the generic
fallback treatment, not the late-blight treatment: underscores are removed
from the label before key matching, so the key `"late_blight"` never
matches.  The healthy case reports `"Healthy"` as claimed. -/
theorem claim_C2 :
    (generate_report "Tomato___Late_blight" conf093).status = "Infected" ∧
    containsSub (generate_report "Tomato___Late_blight" conf093).title.data
      ("Late blight".data) = true ∧
    containsSub (generate_report "Tomato___Late_blight" conf093).details.data
      ("93.00%".data) = true ∧
    containsSub (generate_report "Tomato___Late_blight" conf093).details.data
      ("Use fungicides with chlorothalonil/copper immediately.".data) = false ∧
    containsSub (generate_report "Tomato___Late_blight" conf093).details.data
      ("Isolate plant. Consult local agricultural extension.".data) = true ∧
    (generate_report "healthy" conf099).status = "Healthy" := by
  refine ⟨rfl, by decide, by decide, by decide, by decide, rfl⟩

/-- Claim C4 (confirmed): the report's status is `"Healthy"` exactly when
the lowercased normalized label contains `"healthy"`, the only other
status is `"Infected"`, and the title is the status glyph followed by a
space and the normalized label. -/
theorem claim_C4 (raw_label : String) (confidence : ℚ) :
    ((generate_report raw_label confidence).status = "Healthy" ↔
      containsSub (lowerL (cleanLabel raw_label)) ("healthy".data) = true) ∧
    ((generate_report raw_label confidence).status = "Healthy" ∨
      (generate_report raw_label confidence).status = "Infected") ∧
    (generate_report raw_label confidence).title =
      (if (generate_report raw_label confidence).status = "Healthy"
        then "✅" else "⚠️") ++ " " ++ String.mk (cleanLabel raw_label) := by
  unfold generate_report
  cases h : containsSub (lowerL (cleanLabel raw_label)) ("healthy".data) <;>
    simp [h]

/-- Claim C9 (confirmed): on a store file that parses but lacks the
top-level `users` key, `ensure_store` persists a repaired document: the
legacy flat map is wrapped under the `users` key when it contains an
`admin` entry, and otherwise the document is reset to an empty `users`
map. -/
theorem claim_C9 (m : List (String × UserRec)) :
    _ensure_db (DiskState.stored (Doc.flat m)) =
      DiskState.stored
        (Doc.withUsers (if keyMem m "admin" then m else [])) := by
  unfold _ensure_db _load _save
  cases h : keyMem m "admin" <;> simp [h]

/-- The advisory-selection rule exactly as the spec words it: the first
key, in the fixed table order, that occurs as a (case-insensitive)
substring of the normalized label; the generic fallback when no key
matches.  This definition follows the spec's words and is compared with
`reportInfo`, which follows the code. -/
def adviceSpec (raw : String) : Advice :=
  match ADVICE.find? (fun p => containsSub (lowerL (cleanLabel raw)) p.1.data) with
  | some p => p.2
  | none => genericAdvice

/-- Claim C3 (confirmed): the advisory embedded in the report's details is
selected by taking the first table key, in the order bacterial_spot,
early_blight, late_blight, powdery_mildew, healthy, that occurs in the
lowercased normalized label, with the generic fallback when none does. -/
theorem claim_C3 (raw_label : String) (confidence : ℚ) :
    reportInfo raw_label = adviceSpec raw_label ∧
    (generate_report raw_label confidence).details =
      mkDetails (cleanLabel raw_label) confidence (reportInfo raw_label) := by
  refine ⟨?_, rfl⟩
  unfold reportInfo reportKey adviceSpec
  cases h1 : containsSub (lowerL (cleanLabel raw_label)) ("bacterial_spot".data) <;>
  cases h2 : containsSub (lowerL (cleanLabel raw_label)) ("early_blight".data) <;>
  cases h3 : containsSub (lowerL (cleanLabel raw_label)) ("late_blight".data) <;>
  cases h4 : containsSub (lowerL (cleanLabel raw_label)) ("powdery_mildew".data) <;>
  cases h5 : containsSub (lowerL (cleanLabel raw_label)) ("healthy".data) <;>
    simp [ADVICE, loopMatch, dictGet, List.find?, h1, h2, h3, h4, h5]

/-- A needle containing an underscore never occurs in a haystack without
one. -/
theorem containsSub_false_of_underscore {cl key : List Char}
    (hnou : ('_' : Char) ∉ cl) (hu : ('_' : Char) ∈ key) :
    containsSub cl key = false := by
  cases hx : containsSub cl key with
  | false => rfl
  | true => exact absurd (mem_of_containsSub hx '_' hu) hnou

/-- Claim C10 (confirmed): the advisory embedded in the report's details is
always either the healthy entry or the generic fallback; the four
disease-specific advisories are unreachable, because the four disease keys
contain an underscore while the normalized label has all underscores
replaced with spaces. -/
theorem claim_C10 (raw_label : String) (confidence : ℚ) :
    (reportInfo raw_label = healthyAdvice ∨ reportInfo raw_label = genericAdvice) ∧
    (generate_report raw_label confidence).details =
      mkDetails (cleanLabel raw_label) confidence (reportInfo raw_label) := by
  refine ⟨?_, rfl⟩
  have hnou := underscore_not_mem_lowerClean raw_label
  have hu1 : ('_' : Char) ∈ ("bacterial_spot".data) := by decide
  have hu2 : ('_' : Char) ∈ ("early_blight".data) := by decide
  have hu3 : ('_' : Char) ∈ ("late_blight".data) := by decide
  have hu4 : ('_' : Char) ∈ ("powdery_mildew".data) := by decide
  have h1 := containsSub_false_of_underscore hnou hu1
  have h2 := containsSub_false_of_underscore hnou hu2
  have h3 := containsSub_false_of_underscore hnou hu3
  have h4 := containsSub_false_of_underscore hnou hu4
  unfold reportInfo reportKey
  cases h5 : containsSub (lowerL (cleanLabel raw_label)) ("healthy".data) <;>
    simp [ADVICE, loopMatch, dictGet, h1, h2, h3, h4, h5]

/-- A key that is not in the dict looks up to nothing. -/
theorem dictGet_eq_none {α : Type} {d : List (String × α)} {k : String}
    (h : keyMem d k = false) : dictGet d k = none := by
  induction d with
  | nil => rfl
  | cons p rest ih =>
      simp only [keyMem, Bool.or_eq_false_iff] at h
      simp [dictGet, h.1, ih h.2]

/-- A successful lookup means the key is in the dict. -/
theorem keyMem_of_dictGet {α : Type} {d : List (String × α)} {k : String}
    {v : α} (h : dictGet d k = some v) : keyMem d k = true := by
  induction d with
  | nil => simp [dictGet] at h
  | cons p rest ih =>
      cases hp : (p.1 == k) with
      | true => simp [keyMem, hp]
      | false =>
          simp only [dictGet, hp] at h
          simp [keyMem, hp, ih (by simpa using h)]

/-- Looking up past an appended dict whose keys miss. -/
theorem dictGet_append_right {α : Type} {d d' : List (String × α)}
    {k : String} (h : keyMem d k = false) :
    dictGet (d ++ d') k = dictGet d' k := by
  induction d with
  | nil => rfl
  | cons p rest ih =>
      simp only [keyMem, Bool.or_eq_false_iff] at h
      simp [dictGet, h.1, ih h.2]

/-- Membership distributes over append. -/
theorem keyMem_append {α : Type} (d d' : List (String × α)) (k : String) :
    keyMem (d ++ d') k = (keyMem d k || keyMem d' k) := by
  induction d with
  | nil => simp [keyMem]
  | cons p rest ih => simp [keyMem, ih, Bool.or_assoc]

/-- In-place update rewrites exactly the looked-up value. -/
theorem dictGet_updateRec {α : Type} {d : List (String × α)} {k : String}
    {v : α} (h : dictGet d k = some v) (f : α → α) :
    dictGet (updateRec d k f) k = some (f v) := by
  induction d with
  | nil => simp [dictGet] at h
  | cons p rest ih =>
      cases hp : (p.1 == k) with
      | true =>
          have hv : p.2 = v := by simpa [dictGet, hp] using h
          subst hv
          simp [updateRec, dictGet, hp]
      | false =>
          have h' : dictGet rest k = some v := by simpa [dictGet, hp] using h
          simpa [updateRec, dictGet, hp] using ih h'

/-- The number of entries of a dict carrying a given key. -/
def countKey {α : Type} (d : List (String × α)) (k : String) : Nat :=
  List.countP (fun p => p.1 == k) d

/-- A key not in the dict has no entries. -/
theorem countKey_eq_zero {α : Type} {d : List (String × α)} {k : String}
    (h : keyMem d k = false) : countKey d k = 0 := by
  induction d with
  | nil => rfl
  | cons p rest ih =>
      simp only [keyMem, Bool.or_eq_false_iff] at h
      simp [countKey, List.countP_cons, h.1, ih h.2]
      simp [countKey] at ih
      exact ih h.2

/-- Claim C5 (confirmed): registering a fresh username appends its record
(hash of the password, empty history and inventory), persists, and returns
success; a second registration under the same name fails with `ok = false`
and leaves the store - in particular the one record for that username,
carrying the first password's hash - unchanged. -/
theorem claim_C5 (s : DiskState) (us : List (String × UserRec)) (u p q : String)
    (hload : _load s = Doc.withUsers us) (hnew : keyMem us u = false) :
    register_user s u p =
      some ((true, "Success"),
        DiskState.stored (Doc.withUsers (us ++ [(u, ⟨_hash p, [], []⟩)]))) ∧
    dictGet (us ++ [(u, ⟨_hash p, [], []⟩)]) u = some ⟨_hash p, [], []⟩ ∧
    countKey (us ++ [(u, ⟨_hash p, [], []⟩)]) u = 1 ∧
    register_user
        (DiskState.stored (Doc.withUsers (us ++ [(u, ⟨_hash p, [], []⟩)]))) u q =
      some ((false, "Username taken"),
        DiskState.stored (Doc.withUsers (us ++ [(u, ⟨_hash p, [], []⟩)]))) := by
  refine ⟨?_, ?_, ?_, ?_⟩
  · unfold register_user
    rw [hload]
    simp [hnew, _save]
  · rw [dictGet_append_right hnew]
    simp [dictGet]
  · unfold countKey
    rw [List.countP_append]
    have h0 : countKey us u = 0 := countKey_eq_zero hnew
    unfold countKey at h0
    simp [h0, List.countP_cons]
  · unfold register_user
    simp [_load, keyMem_append, keyMem, hnew]

/-- Witness for claim C5 at a concrete store: registering "alice" with
password "x" into the fresh store, then again with "y". -/
theorem claim_C5_witness :
    register_user (DiskState.stored (Doc.withUsers [])) "alice" "x" =
      some ((true, "Success"),
        DiskState.stored (Doc.withUsers [("alice", ⟨_hash "x", [], []⟩)])) ∧
    dictGet [("alice", (⟨_hash "x", [], []⟩ : UserRec))] "alice" =
      some ⟨_hash "x", [], []⟩ ∧
    countKey [("alice", (⟨_hash "x", [], []⟩ : UserRec))] "alice" = 1 ∧
    register_user
        (DiskState.stored (Doc.withUsers [("alice", ⟨_hash "x", [], []⟩)]))
        "alice" "y" =
      some ((false, "Username taken"),
        DiskState.stored (Doc.withUsers [("alice", ⟨_hash "x", [], []⟩)])) := by
  simpa using claim_C5 (DiskState.stored (Doc.withUsers [])) [] "alice" "x" "y"
    rfl rfl

/-- Claim C6 (confirmed): `verify_user` is true exactly when the username
is in the store and its stored hash is the hash of the supplied password;
after registering "alice" with password "x" in a fresh store, "alice"/"x"
verifies, "alice"/"wrong" does not, and "nobody"/"x" does not. -/
theorem claim_C6 :
    (∀ (s : DiskState) (u p : String),
      verify_user s u p = true ↔
        ∃ r, dictGet (usersOrEmpty (_load s)) u = some r ∧
          r.password = _hash p) ∧
    (∀ s1 : DiskState,
      register_user (DiskState.stored (Doc.withUsers [])) "alice" "x" =
          some ((true, "Success"), s1) →
        verify_user s1 "alice" "x" = true ∧
        verify_user s1 "alice" "wrong" = false ∧
        verify_user s1 "nobody" "x" = false) := by
  constructor
  · intro s u p
    unfold verify_user
    cases h : dictGet (usersOrEmpty (_load s)) u with
    | none => simp [h]
    | some r => simp [h, beq_iff_eq]
  · intro s1 hreg
    have hcomp : register_user (DiskState.stored (Doc.withUsers [])) "alice" "x" =
        some ((true, "Success"),
          DiskState.stored (Doc.withUsers [("alice", ⟨_hash "x", [], []⟩)])) := by
      simp [register_user, _load, keyMem, _save]
    rw [hcomp] at hreg
    have hs1 : s1 =
        DiskState.stored (Doc.withUsers [("alice", ⟨_hash "x", [], []⟩)]) := by
      simpa using hreg.symm
    subst hs1
    refine ⟨?_, ?_, ?_⟩
    · simp [verify_user, _load, usersOrEmpty, dictGet]
    · simp only [verify_user, _load, usersOrEmpty, dictGet]
      decide
    · simp [verify_user, _load, usersOrEmpty, dictGet]

/-- Witness for claim C6 at the concrete post-registration store. -/
theorem claim_C6_witness :
    verify_user (DiskState.stored (Doc.withUsers [("alice", ⟨_hash "x", [], []⟩)]))
      "alice" "x" = true ∧
    verify_user (DiskState.stored (Doc.withUsers [("alice", ⟨_hash "x", [], []⟩)]))
      "alice" "wrong" = false ∧
    verify_user (DiskState.stored (Doc.withUsers [("alice", ⟨_hash "x", [], []⟩)]))
      "nobody" "x" = false :=
  claim_C6.2 _ rfl

/-- Claim C7 (confirmed): for an existing user, `add_item` persists a store
whose inventory for that user is the new item - same name, category,
quantity and notes, the generated id and the current date - followed by the
previously stored items unchanged.  The generated id and current date enter
the embedding as the explicit arguments `newId` and `today`. -/
theorem claim_C7 (s : DiskState) (us : List (String × UserRec)) (r : UserRec)
    (user nm category qty notes newId today : String)
    (hload : _load s = Doc.withUsers us) (hu : dictGet us user = some r) :
    ∃ s', add_item s user nm category qty notes newId today = some s' ∧
      get_inventory s' user =
        (⟨newId, nm, category, qty, notes, today⟩ : Item) ::
          get_inventory s user := by
  have hk : keyMem us user = true := keyMem_of_dictGet hu
  refine ⟨DiskState.stored (Doc.withUsers (updateRec us user
    (fun rec => { rec with
      inventory := (⟨newId, nm, category, qty, notes, today⟩ : Item) ::
        rec.inventory }))), ?_, ?_⟩
  · unfold add_item
    rw [hload]
    simp [hk, _save]
  · unfold get_inventory
    rw [hload]
    simp only [_load, usersOrEmpty]
    rw [dictGet_updateRec hu, hu]

/-- Witness for claim C7 at a concrete store holding one user with one
prior item. -/
theorem claim_C7_witness :
    ∃ s', add_item
        (DiskState.stored (Doc.withUsers [("alice",
          ⟨"ph", [], [⟨"aaaa1111", "Hoe", "Tool", "1", "", "2026-10-01"⟩]⟩)]))
        "alice" "Basil" "Plant" "2" "fresh" "bbbb2222" "2026-10-12" = some s' ∧
      get_inventory s' "alice" =
        (⟨"bbbb2222", "Basil", "Plant", "2", "fresh", "2026-10-12"⟩ : Item) ::
          get_inventory
            (DiskState.stored (Doc.withUsers [("alice",
              ⟨"ph", [], [⟨"aaaa1111", "Hoe", "Tool", "1", "", "2026-10-01"⟩]⟩)]))
            "alice" :=
  claim_C7 _ _ _ "alice" "Basil" "Plant" "2" "fresh" "bbbb2222" "2026-10-12"
    rfl rfl

/-- The number of inventory items with a given category. -/
def catCount (inv : List Item) (c : String) : Nat :=
  List.countP (fun i => i.category == c) inv

/-- The number of inventory items whose category is none of Plant, Seed,
Tool - the items `get_stats` counts under Other. -/
def otherCount (inv : List Item) : Nat :=
  List.countP
    (fun i => !(i.category == "Plant" || i.category == "Seed" ||
      i.category == "Tool")) inv

/-- Folding the stats loop over an inventory adds, to each starting count,
the number of items of that category - with every category other than
Plant, Seed and Tool accumulating on the Other entry. -/
theorem statsFold (inv : List Item) (p s t o : Nat) :
    inv.foldl statsStep [("Plant", p), ("Seed", s), ("Tool", t), ("Other", o)] =
      [("Plant", p + catCount inv "Plant"), ("Seed", s + catCount inv "Seed"),
       ("Tool", t + catCount inv "Tool"), ("Other", o + otherCount inv)] := by
  induction inv generalizing p s t o with
  | nil => simp [catCount, otherCount]
  | cons i rest ih =>
      rw [List.foldl_cons]
      by_cases hp : i.category = "Plant"
      · have hstep : statsStep [("Plant", p), ("Seed", s), ("Tool", t),
            ("Other", o)] i = [("Plant", p + 1), ("Seed", s), ("Tool", t),
            ("Other", o)] := by
          unfold statsStep
          rw [hp]
          rfl
        rw [hstep, ih]
        simp [catCount, otherCount, List.countP_cons, hp,
          List.cons.injEq, Prod.mk.injEq]
        omega
      · by_cases hs : i.category = "Seed"
        · have hstep : statsStep [("Plant", p), ("Seed", s), ("Tool", t),
              ("Other", o)] i = [("Plant", p), ("Seed", s + 1), ("Tool", t),
              ("Other", o)] := by
            unfold statsStep
            rw [hs]
            rfl
          rw [hstep, ih]
          simp [catCount, otherCount, List.countP_cons, hs,
            List.cons.injEq, Prod.mk.injEq]
          omega
        · by_cases ht : i.category = "Tool"
          · have hstep : statsStep [("Plant", p), ("Seed", s), ("Tool", t),
                ("Other", o)] i = [("Plant", p), ("Seed", s), ("Tool", t + 1),
                ("Other", o)] := by
              unfold statsStep
              rw [ht]
              rfl
            rw [hstep, ih]
            simp [catCount, otherCount, List.countP_cons, ht,
              List.cons.injEq, Prod.mk.injEq]
            omega
          · have hp' : (i.category == "Plant") = false := by
              simp [beq_iff_eq, hp]
            have hs' : (i.category == "Seed") = false := by
              simp [beq_iff_eq, hs]
            have ht' : (i.category == "Tool") = false := by
              simp [beq_iff_eq, ht]
            have hstep : statsStep [("Plant", p), ("Seed", s), ("Tool", t),
                ("Other", o)] i = [("Plant", p), ("Seed", s), ("Tool", t),
                ("Other", o + 1)] := by
              unfold statsStep
              by_cases ho : i.category = "Other"
              · rw [ho]
                rfl
              · have ho' : (i.category == "Other") = false := by
                  simp [beq_iff_eq, ho]
                have hk : keyMem [("Plant", p), ("Seed", s), ("Tool", t),
                    ("Other", o)] i.category = false := by
                  simp [keyMem, beq_iff_eq]
                  exact ⟨fun h => hp h.symm, fun h => hs h.symm,
                    fun h => ht h.symm, fun h => ho h.symm⟩
                rw [hk]
                simp [bump, List.map_cons, hp', hs', ht', ho']
            rw [hstep, ih]
            simp [catCount, otherCount, List.countP_cons, hp', hs', ht',
              List.cons.injEq, Prod.mk.injEq]
            omega

/-- A store holding one user "u" with one item of each UI category Plant,
Seed, Tool, Fertilizer. -/
def statsExampleStore : DiskState :=
  DiskState.stored (Doc.withUsers [("u", ⟨"ph", [],
    [⟨"aaaa0001", "Basil", "Plant", "2", "", "2026-10-12"⟩,
     ⟨"aaaa0002", "Corn", "Seed", "5", "", "2026-10-12"⟩,
     ⟨"aaaa0003", "Hoe", "Tool", "1", "", "2026-10-12"⟩,
     ⟨"aaaa0004", "NPK", "Fertilizer", "3", "", "2026-10-12"⟩]⟩)])

/-- Claim C8 (confirmed): `get_stats` returns a mapping over exactly the
keys Plant, Seed, Tool, Other, in which each of Plant, Seed and Tool
counts its own items and Other counts every item of any other category
(Fertilizer included); on an inventory with one item of each UI category
the counts are all 1. -/
theorem claim_C8 :
    (∀ (s : DiskState) (user : String),
      get_stats s user =
        [("Plant", catCount (get_inventory s user) "Plant"),
         ("Seed", catCount (get_inventory s user) "Seed"),
         ("Tool", catCount (get_inventory s user) "Tool"),
         ("Other", otherCount (get_inventory s user))]) ∧
    get_stats statsExampleStore "u" =
      [("Plant", 1), ("Seed", 1), ("Tool", 1), ("Other", 1)] := by
  constructor
  · intro s user
    have h := statsFold (get_inventory s user) 0 0 0 0
    simpa [get_stats, statsInit] using h
  · decide
